import Mathlib

/-!
Verification development for the quiz-generation pipeline in `src/quiz.py`
(the `/quiz` Flask endpoint).

Python strings are embedded as `List Char` (`Str`).  The endpoint body is
embedded as the function `quiz`, parameterised over

  * `loads`     : the JSON decoder (the `json.loads` stdlib boundary; a
                  decoder returning `none` models `json.loads` raising),
  * `req`       : the incoming form data (image presence, optional
                  difficulty/category form fields),
  * `geminiText`, `gptText` : the texts returned by the two generative
                  backends (oracle inputs), and
  * `choices`   : the stream of random draws consumed by `random.shuffle`
                  (CPython draws `j = randbelow(i+1)` for `i = n-1, …, 1`).

The result pairs the endpoint outcome with the list of backend calls that
were issued, so "no backend call is made" is expressible.  `jsonLoads` is a
concrete executable decoder for the JSON fragment used by the concrete
witnesses (objects, arrays, strings with basic escapes, integers, literals);
it is only used to instantiate `loads` at concrete inputs.

File writes of intermediate artifacts (`description.txt`, `quiz.txt`,
`quiz.json`) are pure logging and are not modelled.
-/

/-! ## Python string primitives -/

/-- Python strings, embedded as lists of characters. -/
abbrev Str : Type := List Char

/-- Convert a Lean string literal to the embedding type. -/
def chars (s : String) : Str := s.toList

/-- The backtick character (used by markdown fences). -/
def btChar : Char := Char.ofNat 96

/-- ASCII whitespace recognised by Python's `str.strip()`. -/
def isWS (c : Char) : Bool :=
  c = ' ' || c = '\t' || c = '\n' || c = '\r' || c = '\x0b' || c = '\x0c'

/-- Remove leading characters satisfying `p` (Python `lstrip`). -/
def lstripP (p : Char → Bool) (s : Str) : Str := s.dropWhile p

/-- Remove trailing characters satisfying `p` (Python `rstrip`). -/
def rstripP (p : Char → Bool) (s : Str) : Str := (s.reverse.dropWhile p).reverse

/-- Remove leading and trailing characters satisfying `p` (Python `strip`). -/
def stripP (p : Char → Bool) (s : Str) : Str := lstripP p (rstripP p s)

/-- Python `str.strip()` (no argument): strip whitespace from both ends. -/
def pyStrip (s : Str) : Str := stripP isWS s

/-- Python `str.strip("\x60")`: strip backticks from both ends. -/
def stripBackticks (s : Str) : Str := stripP (fun c => c = btChar) s

/-- Python `str.lower()` (ASCII). -/
def pyLower (s : Str) : Str := s.map Char.toLower

/-- Python `str.startswith(pre)`. -/
def strStartsWith : Str → Str → Bool
  | _, [] => true
  | [], _ :: _ => false
  | c :: cs, p :: ps => c = p && strStartsWith cs ps

/-- Python `str.title()` (ASCII): the first letter of every run of letters is
upper-cased, subsequent letters are lower-cased.  `prevAlpha` records whether
the previous character was a letter. -/
def pyTitleAux : Bool → Str → Str
  | _, [] => []
  | prevAlpha, c :: rest =>
    if c.isAlpha then
      (if prevAlpha then c.toLower else c.toUpper) :: pyTitleAux true rest
    else
      c :: pyTitleAux false rest

/-- Python `str.title()` (ASCII). -/
def pyTitle (s : Str) : Str := pyTitleAux false s

/-! ## JSON values

JSON values as produced by `json.loads`.  Arrays and objects carry bespoke
list types (`JsonArr`, `JsonObj`) so that equality is decidable by kernel
computation; `JsonArr.toList` recovers an ordinary Lean list. -/

mutual

inductive Json where
  | null : Json
  | bool : Bool → Json
  | num : Int → Json
  | str : Str → Json
  | arr : JsonArr → Json
  | obj : JsonObj → Json

inductive JsonArr where
  | nil : JsonArr
  | cons : Json → JsonArr → JsonArr

inductive JsonObj where
  | nil : JsonObj
  | cons : Str → Json → JsonObj → JsonObj

end

deriving instance DecidableEq for Json, JsonArr, JsonObj

deriving instance DecidableEq for Except

/-- The elements of a JSON array, as a Lean list. -/
def JsonArr.toList : JsonArr → List Json
  | .nil => []
  | .cons j rest => j :: rest.toList

/-- Python `dict` lookup on a parsed JSON object (keys produced by
`json.loads` are unique, so first-match lookup is dict lookup). -/
def JsonObj.find : JsonObj → Str → Option Json
  | .nil, _ => none
  | .cons k v rest, key => if k = key then some v else rest.find key

/-- Python `dict.get(key, default)`. -/
def JsonObj.getD (o : JsonObj) (key : Str) (dflt : Json) : Json :=
  (o.find key).getD dflt

/-! ## A concrete strict JSON decoder

`jsonLoads` models `json.loads` on the fragment exercised by the concrete
witnesses: `null` / `true` / `false`, integers, strings with the basic
escapes, arrays and objects, with arbitrary whitespace, and rejection of any
trailing content.  (Floats and `\u` escapes are outside the fragment; no
witness uses them.)  It is executable so hypotheses such as
"this text fails strict JSON parsing" can be discharged by `decide`. -/

/-- Skip JSON whitespace. -/
def skipWS (s : Str) : Str := s.dropWhile isWS

/-- Decode a single JSON string escape character. -/
def escapeChar (c : Char) : Option Char :=
  if c = '"' then some '"'
  else if c = '\\' then some '\\'
  else if c = '/' then some '/'
  else if c = 'n' then some '\n'
  else if c = 't' then some '\t'
  else if c = 'r' then some '\r'
  else if c = 'b' then some '\x08'
  else if c = 'f' then some '\x0c'
  else none

/-- Parse the body of a JSON string (after the opening quote), returning the
decoded characters and the remainder after the closing quote. -/
def parseStringBody : Str → Option (Str × Str)
  | [] => none
  | '\\' :: c :: rest =>
    match escapeChar c with
    | some e =>
      match parseStringBody rest with
      | some (s, r) => some (e :: s, r)
      | none => none
    | none => none
  | c :: rest =>
    if c = '"' then some ([], rest)
    else
      match parseStringBody rest with
      | some (s, r) => some (c :: s, r)
      | none => none

/-- Parse a run of decimal digits. -/
def parseNatNum (s : Str) : Option (Nat × Str) :=
  let digits := s.takeWhile Char.isDigit
  if digits.isEmpty then none
  else some (digits.foldl (fun acc c => acc * 10 + (c.toNat - 48)) 0,
             s.dropWhile Char.isDigit)

/-- Parse a JSON integer (optional minus sign). -/
def parseIntNum (s : Str) : Option (Json × Str) :=
  match s with
  | '-' :: rest =>
    match parseNatNum rest with
    | some (n, r) => some (Json.num (-(n : Int)), r)
    | none => none
  | _ =>
    match parseNatNum s with
    | some (n, r) => some (Json.num (n : Int), r)
    | none => none

/-- Parse the items of a JSON array after the first item's position,
given a value parser `pv`; `fuel` bounds the number of items. -/
def parseArrItems (pv : Str → Option (Json × Str)) : Nat → Str → Option (JsonArr × Str)
  | 0, _ => none
  | fuel + 1, s =>
    match pv s with
    | none => none
    | some (j, r) =>
      match skipWS r with
      | ']' :: r2 => some (JsonArr.cons j JsonArr.nil, r2)
      | ',' :: r2 =>
        match parseArrItems pv fuel r2 with
        | some (rest, r3) => some (JsonArr.cons j rest, r3)
        | none => none
      | _ => none

/-- Parse the members of a JSON object after the first member's position,
given a value parser `pv`; `fuel` bounds the number of members. -/
def parseObjItems (pv : Str → Option (Json × Str)) : Nat → Str → Option (JsonObj × Str)
  | 0, _ => none
  | fuel + 1, s =>
    match skipWS s with
    | '"' :: r =>
      match parseStringBody r with
      | none => none
      | some (key, r1) =>
        match skipWS r1 with
        | ':' :: r2 =>
          match pv r2 with
          | none => none
          | some (v, r3) =>
            match skipWS r3 with
            | '\x7d' :: r4 => some (JsonObj.cons key v JsonObj.nil, r4)
            | ',' :: r4 =>
              match parseObjItems pv fuel r4 with
              | some (rest, r5) => some (JsonObj.cons key v rest, r5)
              | none => none
            | _ => none
        | _ => none
    | _ => none

/-- Parse one JSON value; `fuel` bounds the nesting depth and total size. -/
def parseValue : Nat → Str → Option (Json × Str)
  | 0, _ => none
  | fuel + 1, s =>
    match skipWS s with
    | [] => none
    | c :: rest =>
      if c = '"' then
        match parseStringBody rest with
        | some (str, r) => some (Json.str str, r)
        | none => none
      else if c = '[' then
        match skipWS rest with
        | ']' :: r => some (Json.arr JsonArr.nil, r)
        | _ =>
          match parseArrItems (parseValue fuel) fuel rest with
          | some (a, r) => some (Json.arr a, r)
          | none => none
      else if c = '\x7b' then
        match skipWS rest with
        | '\x7d' :: r => some (Json.obj JsonObj.nil, r)
        | _ =>
          match parseObjItems (parseValue fuel) fuel rest with
          | some (o, r) => some (Json.obj o, r)
          | none => none
      else if strStartsWith (c :: rest) (chars "null") then
        some (Json.null, (c :: rest).drop 4)
      else if strStartsWith (c :: rest) (chars "true") then
        some (Json.bool true, (c :: rest).drop 4)
      else if strStartsWith (c :: rest) (chars "false") then
        some (Json.bool false, (c :: rest).drop 5)
      else if c = '-' || c.isDigit then
        parseIntNum (c :: rest)
      else none

/-- `json.loads`: parse a complete JSON document; any trailing non-whitespace
content is an error. -/
def jsonLoads (s : Str) : Option Json :=
  match parseValue (s.length + 4) s with
  | some (j, rest) => if skipWS rest = [] then some j else none
  | none => none

/-! ## Markdown-fence stripping  (src/quiz.py lines 85–91 and 272–277)

Both backend responses go through the same cleanup: after `str.strip()`, if
the text starts with three backticks, strip backticks from both ends and, if
the result then starts with `json` (case-insensitively), drop those four
characters and strip whitespace again. -/

/-- The fence cleanup applied to an already-whitespace-stripped text. -/
def stripFences (cleaned : Str) : Str :=
  if strStartsWith cleaned (chars "```") then
    let c2 := stripBackticks cleaned
    if strStartsWith (pyLower c2) (chars "json") then pyStrip (c2.drop 4)
    else c2
  else cleaned

/-! ## Description extraction  (src/quiz.py lines 84–94)

`obj = json.loads(cleaned)` inside `try`, with `except Exception` falling
back to `{"description": desc}` where `desc` is the raw response text. -/

/-- The description-extraction parse with its defensive fallback. -/
def extractDescription (loads : Str → Option Json) (desc : Str) : Json :=
  match loads (stripFences (pyStrip desc)) with
  | some j => j
  | none => Json.obj (JsonObj.cons (chars "description") (Json.str desc) JsonObj.nil)

/-- A backend response wrapped in a markdown fence with a leading `json`
language tag (used to state the fence-stripping property). -/
def fenceWrap (inner : Str) : Str :=
  chars "```json" ++ '\n' :: inner ++ '\n' :: chars "```"

/-! ## `random.shuffle`  (src/quiz.py line 295)

CPython's `random.shuffle(x)` runs
`for i in reversed(range(1, len(x))): j = randbelow(i+1); x[i], x[j] = x[j], x[i]`.
`fyShuffle choices l` applies those swaps with the stream of random draws
`choices = [j_(n-1), …, j_1]`.  A draw outside the list bounds never occurs in
CPython (`randbelow(i+1) ≤ i`); `listSwap` leaves the list unchanged there so
that the embedding is total. -/

/-- Swap the elements at positions `i` and `j` (in-bounds condition guarded). -/
def listSwap {α : Type} (l : List α) (i j : Nat) : List α :=
  if h : i < l.length ∧ j < l.length then
    (l.set i (l.get ⟨j, h.2⟩)).set j (l.get ⟨i, h.1⟩)
  else l

/-- Run a sequence of swaps `(i, j)`. -/
def fyLoop {α : Type} : List (Nat × Nat) → List α → List α
  | [], l => l
  | p :: rest, l => fyLoop rest (listSwap l p.1 p.2)

/-- Fisher–Yates as performed by `random.shuffle`, consuming the random draws
`choices` for positions `i = n-1, …, 1`. -/
def fyShuffle {α : Type} (choices : List Nat) (l : List α) : List α :=
  fyLoop ((((List.range l.length).reverse).filter (fun i => 0 < i)).zip choices) l

/-! ## Index recomputation and normalization  (src/quiz.py lines 286–304) -/

/-- Python `list.index` returning `none` instead of raising `ValueError`:
the first position whose element equals `a`. -/
def pyIndex {α : Type} [DecidableEq α] : List α → α → Option Nat
  | [], _ => none
  | b :: l, a =>
    if b = a then some 0
    else
      match pyIndex l a with
      | some n => some (n + 1)
      | none => none

/-- Lines 298–304: look up the correct answer in the shuffled list; on
`ValueError` (absence) force position 0 to hold the correct answer. -/
def recoverIndex (shuffled : List Json) (correct : Json) : List Json × Nat :=
  match pyIndex shuffled correct with
  | some i => (shuffled, i)
  | none => (shuffled.set 0 correct, 0)

/-- Typed outcomes of the endpoint.  `imageRequired` and `invalidParams` are
the explicit 400 returns; `insufficientOptions` is the explicit 500 return;
`synthesisError` models the uncaught `json.loads` exception on the synthesis
response (HTTP 500); `typeError` models the uncaught dynamic error when the
parsed quiz is not a dict or its "options" value is not a list (HTTP 500). -/
inductive PipeError where
  | imageRequired : PipeError
  | invalidParams : PipeError
  | synthesisError : PipeError
  | insufficientOptions : PipeError
  | typeError : PipeError
deriving DecidableEq

/-- HTTP status attached to each failure by the endpoint. -/
def errorStatus : PipeError → Nat
  | .imageRequired => 400
  | .invalidParams => 400
  | .synthesisError => 500
  | .insufficientOptions => 500
  | .typeError => 500

/-- JSON error message attached to the explicit failure returns
(`none` for the uncaught-exception paths, which produce no JSON body). -/
def errorMessage : PipeError → Option Str
  | .imageRequired => some (chars "image required")
  | .invalidParams => some (chars "invalid difficulty or category")
  | .insufficientOptions => some (chars "LLM did not return enough options")
  | .synthesisError => none
  | .typeError => none

/-- Lines 286–304: the normalization stage on the draft's options list. -/
def normalizeDraft (choices : List Nat) (options : List Json) :
    Except PipeError (List Json × Nat) :=
  if options.length < 2 then Except.error PipeError.insufficientOptions
  else
    let correct := options.headD Json.null
    let shuffled := fyShuffle choices options
    Except.ok (recoverIndex shuffled correct)

/-- The correct-answer index computed by normalization (when it succeeds). -/
def correctIndexOf (choices : List Nat) (options : List Json) : Option Nat :=
  match normalizeDraft choices options with
  | Except.ok p => some p.2
  | Except.error _ => none

/-! ## The endpoint  (src/quiz.py lines 26–322) -/

/-- The incoming request form data. -/
structure Request where
  hasImage : Bool
  difficulty : Option Str
  category : Option Str
deriving DecidableEq

/-- The two external generative backends. -/
inductive BackendCall where
  | gemini : BackendCall
  | gpt : BackendCall
deriving DecidableEq

/-- Line 18. -/
def DIFFICULTIES : List Str :=
  [chars "Easy", chars "Medium", chars "Hard", chars "Very Hard"]

/-- Lines 19–24. -/
def CATEGORIES : List Str :=
  [chars "General", chars "History", chars "Fun Fact", chars "Records/Statistics"]

/-- The final quiz record returned to the client (lines 307–316). -/
structure FinalQuiz where
  question : Json
  options : List Json
  correct_index : Nat
  hint : Json
  explanation : Json
  title : Json
  difficulty : Str
  category : Str
deriving DecidableEq

/-- Field accessor used in closed statements. -/
def finalDifficulty (f : FinalQuiz) : Str := f.difficulty

/-- Field accessor used in closed statements. -/
def finalCategory (f : FinalQuiz) : Str := f.category

/-- Field accessor used in closed statements. -/
def finalOptions (f : FinalQuiz) : List Json := f.options

/-- Field accessor used in closed statements. -/
def finalIndex (f : FinalQuiz) : Nat := f.correct_index

/-- `quiz.get("options", [])` and the implicit requirement that its value is a
list: a non-dict quiz or a non-list "options" value raises (HTTP 500),
modelled as `typeError`. -/
def getOptions : Json → Except PipeError (JsonObj × List Json)
  | Json.obj kvs =>
    match kvs.getD (chars "options") (Json.arr JsonArr.nil) with
    | Json.arr a => Except.ok (kvs, a.toList)
    | _ => Except.error PipeError.typeError
  | _ => Except.error PipeError.typeError

/-- Lines 307–316: assemble the final record from the parsed quiz object, the
shuffled options, the recomputed index, and the validated parameters. -/
def mkFinal (kvs : JsonObj) (shuffled : List Json) (i : Nat)
    (difficulty category : Str) : FinalQuiz :=
  { question := kvs.getD (chars "question") (Json.str [])
    options := shuffled
    correct_index := i
    hint := kvs.getD (chars "hint") (Json.str [])
    explanation := kvs.getD (chars "explanation") (Json.str [])
    title := kvs.getD (chars "title") (Json.str [])
    difficulty := difficulty
    category := category }

/-- The difficulty value the endpoint works with (line 32: form value with
default `"Medium"`, then `strip().title()`). -/
def normDifficulty (req : Request) : Str :=
  pyTitle (pyStrip (req.difficulty.getD (chars "Medium")))

/-- The category value the endpoint works with (line 33: form value with
default `"General"`). -/
def normCategory (req : Request) : Str :=
  req.category.getD (chars "General")

/-- The `/quiz` endpoint body (lines 26–322), returning the outcome together
with the list of backend calls issued. -/
def quiz (loads : Str → Option Json) (req : Request)
    (geminiText gptText : Str) (choices : List Nat) :
    Except PipeError FinalQuiz × List BackendCall :=
  if req.hasImage = false then (Except.error PipeError.imageRequired, [])
  else if normDifficulty req ∉ DIFFICULTIES ∨ normCategory req ∉ CATEGORIES then
    (Except.error PipeError.invalidParams, [])
  else
    let _obj := extractDescription loads geminiText
    match loads (stripFences (pyStrip gptText)) with
    | none => (Except.error PipeError.synthesisError, [BackendCall.gemini, BackendCall.gpt])
    | some quizJson =>
      match getOptions quizJson with
      | Except.error e => (Except.error e, [BackendCall.gemini, BackendCall.gpt])
      | Except.ok (kvs, options) =>
        match normalizeDraft choices options with
        | Except.error e => (Except.error e, [BackendCall.gemini, BackendCall.gpt])
        | Except.ok (shuffled, i) =>
          (Except.ok (mkFinal kvs shuffled i (normDifficulty req) (normCategory req)),
           [BackendCall.gemini, BackendCall.gpt])

/-- The 24 equally likely random-draw vectors `[j3, j2, j1]` consumed by
`random.shuffle` on a 4-element list (`j3 < 4`, `j2 < 3`, `j1 < 2`). -/
def choiceSpace4 : List (List Nat) :=
  (List.range 4).flatMap (fun j3 =>
    (List.range 3).flatMap (fun j2 =>
      (List.range 2).map (fun j1 => [j3, j2, j1])))

/-! ## Helper lemmas: stripping -/

/-- Stripping from the left stops at a non-matching head. -/
lemma lstripP_cons_neg {p : Char → Bool} {c : Char} (l : Str) (h : p c = false) :
    lstripP p (c :: l) = c :: l := by
  simp [lstripP, List.dropWhile_cons, h]

/-- Stripping from the left drops a matching head. -/
lemma lstripP_cons_pos {p : Char → Bool} {c : Char} (l : Str) (h : p c = true) :
    lstripP p (c :: l) = lstripP p l := by
  simp [lstripP, List.dropWhile_cons, h]

/-- Stripping from the right stops at a non-matching last element. -/
lemma rstripP_append_neg {p : Char → Bool} {c : Char} (l : Str) (h : p c = false) :
    rstripP p (l ++ [c]) = l ++ [c] := by
  simp [rstripP, List.reverse_append, List.dropWhile_cons, h]

/-- Stripping from the right drops a matching last element. -/
lemma rstripP_append_pos {p : Char → Bool} {c : Char} (l : Str) (h : p c = true) :
    rstripP p (l ++ [c]) = rstripP p l := by
  simp [rstripP, List.reverse_append, List.dropWhile_cons, h]

/-- Two-sided strip drops a matching head. -/
lemma stripP_cons_pos {p : Char → Bool} {c : Char} (l : Str) (h : p c = true) :
    stripP p (c :: l) = stripP p l := by
  unfold stripP
  by_cases hl : (List.dropWhile p l.reverse).isEmpty
  · have h1 : rstripP p (c :: l) = [] := by
      have : (c :: l).reverse = l.reverse ++ [c] := by simp
      simp [rstripP, this, List.dropWhile_append, hl, List.dropWhile_cons, h]
    have h2 : rstripP p l = [] := by
      simp [rstripP]
      simpa [List.isEmpty_iff] using hl
    simp [h1, h2]
  · have h1 : rstripP p (c :: l) = c :: rstripP p l := by
      have : (c :: l).reverse = l.reverse ++ [c] := by simp
      simp [rstripP, this, List.dropWhile_append, hl]
    rw [h1, lstripP_cons_pos _ h]

/-- Two-sided strip drops a matching last element. -/
lemma stripP_append_pos {p : Char → Bool} {c : Char} (l : Str) (h : p c = true) :
    stripP p (l ++ [c]) = stripP p l := by
  unfold stripP
  rw [rstripP_append_pos _ h]

/-- A list whose first and last characters do not match `p` is unchanged by
two-sided stripping. -/
lemma stripP_sandwich {p : Char → Bool} {c d : Char} (l : Str)
    (hc : p c = false) (hd : p d = false) :
    stripP p (c :: l ++ [d]) = c :: l ++ [d] := by
  unfold stripP
  have h1 : rstripP p (c :: l ++ [d]) = c :: l ++ [d] := by
    have : c :: l ++ [d] = (c :: l) ++ [d] := by simp
    rw [this, rstripP_append_neg _ hd]
  rw [h1]
  exact lstripP_cons_neg _ hc

/-! ## Helper lemmas: the shuffle is a permutation -/

/-- Replacing position `m` by `a` and re-consing the old element is a
permutation of consing `a`. -/
lemma get_cons_set_perm {α : Type} :
    ∀ (t : List α) (m : Nat) (h : m < t.length) (a : α),
      List.Perm (t.get ⟨m, h⟩ :: t.set m a) (a :: t)
  | [], m, h, _ => absurd h (by simp)
  | b :: s, 0, _, a => by
    simpa using List.Perm.swap a b s
  | b :: s, m + 1, h, a => by
    have hm : m < s.length := by simpa using h
    have ih := get_cons_set_perm s m hm a
    have step1 : List.Perm ((b :: s).get ⟨m + 1, h⟩ :: (b :: s).set (m + 1) a)
        (b :: (s.get ⟨m, hm⟩ :: s.set m a)) := by
      simpa using List.Perm.swap b (s.get ⟨m, hm⟩) (s.set m a)
    exact step1.trans ((ih.cons b).trans (List.Perm.swap a b s))

/-- The double-`set` swap is a permutation. -/
lemma set_set_perm {α : Type} :
    ∀ (l : List α) (i j : Nat) (hi : i < l.length) (hj : j < l.length),
      List.Perm ((l.set i (l.get ⟨j, hj⟩)).set j (l.get ⟨i, hi⟩)) l
  | [], i, _, hi, _ => absurd hi (by simp)
  | a :: t, 0, 0, _, _ => by simp
  | a :: t, 0, m + 1, _, hj => by
    have hm : m < t.length := by simpa using hj
    have : ((a :: t).set 0 ((a :: t).get ⟨m + 1, hj⟩)).set (m + 1) ((a :: t).get ⟨0, by simp⟩)
        = t.get ⟨m, hm⟩ :: t.set m a := by simp
    rw [this]
    exact get_cons_set_perm t m hm a
  | a :: t, k + 1, 0, hi, _ => by
    have hk : k < t.length := by simpa using hi
    have : ((a :: t).set (k + 1) ((a :: t).get ⟨0, by simp⟩)).set 0 ((a :: t).get ⟨k + 1, hi⟩)
        = t.get ⟨k, hk⟩ :: t.set k a := by simp
    rw [this]
    exact get_cons_set_perm t k hk a
  | a :: t, k + 1, m + 1, hi, hj => by
    have hk : k < t.length := by simpa using hi
    have hm : m < t.length := by simpa using hj
    have : ((a :: t).set (k + 1) ((a :: t).get ⟨m + 1, hj⟩)).set (m + 1) ((a :: t).get ⟨k + 1, hi⟩)
        = a :: ((t.set k (t.get ⟨m, hm⟩)).set m (t.get ⟨k, hk⟩)) := by simp
    rw [this]
    exact (set_set_perm t k m hk hm).cons a

/-- A single guarded swap is a permutation. -/
lemma listSwap_perm {α : Type} (l : List α) (i j : Nat) :
    List.Perm (listSwap l i j) l := by
  unfold listSwap
  split
  · next h => exact set_set_perm l i j h.1 h.2
  · exact List.Perm.refl l

/-- Any sequence of guarded swaps is a permutation. -/
lemma fyLoop_perm {α : Type} :
    ∀ (ps : List (Nat × Nat)) (l : List α), List.Perm (fyLoop ps l) l
  | [], l => List.Perm.refl l
  | p :: rest, l => (fyLoop_perm rest (listSwap l p.1 p.2)).trans (listSwap_perm l p.1 p.2)

/-- The shuffle permutes its input, for every stream of random draws. -/
lemma fyShuffle_perm {α : Type} (choices : List Nat) (l : List α) :
    List.Perm (fyShuffle choices l) l :=
  fyLoop_perm _ l

/-- The shuffle preserves length. -/
lemma fyShuffle_length {α : Type} (choices : List Nat) (l : List α) :
    (fyShuffle choices l).length = l.length :=
  (fyShuffle_perm choices l).length_eq

/-! ## Helper lemmas: the shuffle only looks at positions -/

/-- A guarded swap commutes with `map`. -/
lemma listSwap_map {α β : Type} (f : α → β) (l : List α) (i j : Nat) :
    listSwap (l.map f) i j = (listSwap l i j).map f := by
  unfold listSwap
  by_cases h : i < l.length ∧ j < l.length
  · rw [dif_pos (by simpa using h), dif_pos h]
    simp [List.map_set, List.get_map]
  · rw [dif_neg (by simpa using h), dif_neg h]

/-- Swap sequences commute with `map`. -/
lemma fyLoop_map {α β : Type} (f : α → β) :
    ∀ (ps : List (Nat × Nat)) (l : List α),
      fyLoop ps (l.map f) = (fyLoop ps l).map f
  | [], _ => rfl
  | p :: rest, l => by
    rw [fyLoop, fyLoop, listSwap_map, fyLoop_map f rest]

/-- The shuffle is independent of element contents: it commutes with any
relabeling of the elements. -/
lemma fyShuffle_map {α β : Type} (f : α → β) (choices : List Nat) (l : List α) :
    fyShuffle choices (l.map f) = (fyShuffle choices l).map f := by
  unfold fyShuffle
  rw [List.length_map, fyLoop_map]

/-! ## Helper lemmas: `pyIndex` -/

/-- `pyIndex` finds an equal element. -/
lemma pyIndex_get {α : Type} [DecidableEq α] :
    ∀ (l : List α) (a : α) (i : Nat), pyIndex l a = some i → l[i]? = some a
  | [], a, i, h => by simp [pyIndex] at h
  | b :: l, a, i, h => by
    by_cases hb : b = a
    · simp [pyIndex, hb] at h
      simp [← h, hb]
    · rw [pyIndex, if_neg hb] at h
      cases hn : pyIndex l a with
      | none => rw [hn] at h; exact absurd h (by simp)
      | some n =>
        rw [hn] at h
        have hi : i = n + 1 := by
          have := h
          simp at this
          omega
        subst hi
        simpa using pyIndex_get l a n hn

/-- `pyIndex` returns an in-bounds index. -/
lemma pyIndex_lt {α : Type} [DecidableEq α] (l : List α) (a : α) (i : Nat)
    (h : pyIndex l a = some i) : i < l.length := by
  have := pyIndex_get l a i h
  by_contra hc
  rw [List.getElem?_eq_none (by omega)] at this
  exact Option.noConfusion this

/-- An element found by position is a member. -/
lemma mem_of_getElemOpt {α : Type} {l : List α} {n : Nat} {a : α}
    (h : l[n]? = some a) : a ∈ l := by
  induction l generalizing n with
  | nil => simp at h
  | cons b t ih =>
    cases n with
    | zero =>
      simp at h
      simp [h]
    | succ m =>
      simp at h
      exact List.mem_cons_of_mem _ (ih h)

/-- `pyIndex` fails exactly on absent values (Python `ValueError`). -/
lemma pyIndex_none_iff {α : Type} [DecidableEq α] :
    ∀ (l : List α) (a : α), pyIndex l a = none ↔ a ∉ l
  | [], a => by simp [pyIndex]
  | b :: l, a => by
    by_cases hb : b = a
    · simp [pyIndex, hb]
    · rw [pyIndex, if_neg hb]
      cases hn : pyIndex l a with
      | none =>
        have := (pyIndex_none_iff l a).mp hn
        simp [hn, this, Ne.symm hb]
      | some n =>
        have : a ∈ l := mem_of_getElemOpt (pyIndex_get l a n hn)
        simp [hn, this]

/-- A present value has an index. -/
lemma pyIndex_of_mem {α : Type} [DecidableEq α] {l : List α} {a : α} (h : a ∈ l) :
    ∃ i, pyIndex l a = some i := by
  cases hn : pyIndex l a with
  | none => exact absurd ((pyIndex_none_iff l a).mp hn) (by simp [h])
  | some n => exact ⟨n, rfl⟩

/-- `pyIndex` returns the first matching position. -/
lemma pyIndex_min {α : Type} [DecidableEq α] :
    ∀ (l : List α) (a : α) (i : Nat), pyIndex l a = some i →
      ∀ j, j < i → l[j]? ≠ some a
  | [], a, i, h => by simp [pyIndex] at h
  | b :: l, a, i, h => by
    by_cases hb : b = a
    · simp [pyIndex, hb] at h
      omega
    · rw [pyIndex, if_neg hb] at h
      cases hn : pyIndex l a with
      | none => rw [hn] at h; exact absurd h (by simp)
      | some n =>
        rw [hn] at h
        have hi : i = n + 1 := by simp at h; omega
        subst hi
        intro j hj
        cases j with
        | zero => simpa using hb
        | succ m =>
          have := pyIndex_min l a n hn m (by omega)
          simpa using this

/-- `pyIndex` after a relabeling that is faithful on the searched value. -/
lemma pyIndex_map_congr {α β : Type} [DecidableEq α] [DecidableEq β]
    (f : α → β) (a : β) (b : α) :
    ∀ (l : List α), (∀ x ∈ l, (f x = a ↔ x = b)) →
      pyIndex (l.map f) a = pyIndex l b
  | [], _ => rfl
  | x :: l, hf => by
    have hx := hf x (by simp)
    have hrest : ∀ y ∈ l, (f y = a ↔ y = b) := fun y hy => hf y (by simp [hy])
    by_cases hxb : x = b
    · subst hxb
      have hfa : f x = a := hx.mpr rfl
      simp [pyIndex, hfa]
    · have hfx : ¬ f x = a := fun hc => hxb (hx.mp hc)
      simp only [List.map_cons, pyIndex, if_neg hfx, if_neg hxb]
      rw [pyIndex_map_congr f a b l hrest]

/-! ## Helper lemmas: fence stripping on a wrapped response -/

/-- The cleanup of lines 85–91 on a fence-wrapped response with a `json` tag
recovers exactly the (whitespace-stripped) inner content. -/
lemma fence_clean (inner : Str) :
    stripFences (pyStrip (fenceWrap inner)) = pyStrip inner := by
  have hA : chars "```json" = [btChar, btChar, btChar, 'j', 's', 'o', 'n'] := by decide
  have hB : chars "```" = [btChar, btChar, btChar] := by decide
  have hcons : fenceWrap inner
      = btChar :: btChar :: btChar :: 'j' :: 's' :: 'o' :: 'n' :: '\n' ::
        (inner ++ '\n' :: btChar :: btChar :: btChar :: []) := by
    simp [fenceWrap, hA, hB]
  have h1 : pyStrip (fenceWrap inner) = fenceWrap inner := by
    have hshape : fenceWrap inner
        = btChar :: (btChar :: btChar :: 'j' :: 's' :: 'o' :: 'n' :: '\n' ::
          (inner ++ ['\n', btChar, btChar])) ++ [btChar] := by
      rw [hcons]; simp
    rw [hshape]
    show stripP isWS _ = _
    exact stripP_sandwich _ (by decide) (by decide)
  have hstart : strStartsWith (fenceWrap inner) (chars "```") = true := by
    rw [hcons, hB]
    simp [strStartsWith]
  have hbq : ∀ c : Char, (fun c => decide (c = btChar)) c = true ↔ c = btChar := by
    intro c; simp
  have h2 : stripBackticks (fenceWrap inner)
      = 'j' :: 's' :: 'o' :: 'n' :: '\n' :: (inner ++ ['\n']) := by
    have hr : rstripP (fun c => decide (c = btChar)) (fenceWrap inner)
        = btChar :: btChar :: btChar :: 'j' :: 's' :: 'o' :: 'n' :: '\n' :: (inner ++ ['\n']) := by
      have e1 : fenceWrap inner
          = (btChar :: btChar :: btChar :: 'j' :: 's' :: 'o' :: 'n' :: '\n' ::
            (inner ++ ['\n', btChar, btChar])) ++ [btChar] := by
        rw [hcons]; simp
      have e2 : btChar :: btChar :: btChar :: 'j' :: 's' :: 'o' :: 'n' :: '\n' ::
            (inner ++ ['\n', btChar, btChar])
          = (btChar :: btChar :: btChar :: 'j' :: 's' :: 'o' :: 'n' :: '\n' ::
            (inner ++ ['\n', btChar])) ++ [btChar] := by
        simp
      have e3 : btChar :: btChar :: btChar :: 'j' :: 's' :: 'o' :: 'n' :: '\n' ::
            (inner ++ ['\n', btChar])
          = (btChar :: btChar :: btChar :: 'j' :: 's' :: 'o' :: 'n' :: '\n' ::
            (inner ++ ['\n'])) ++ [btChar] := by
        simp
      have e4 : btChar :: btChar :: btChar :: 'j' :: 's' :: 'o' :: 'n' :: '\n' ::
            (inner ++ ['\n'])
          = (btChar :: btChar :: btChar :: 'j' :: 's' :: 'o' :: 'n' :: '\n' :: inner) ++ ['\n'] := by
        simp
      rw [e1, rstripP_append_pos _ (by decide), e2, rstripP_append_pos _ (by decide),
        e3, rstripP_append_pos _ (by decide), e4, rstripP_append_neg _ (by decide)]
    show stripP _ _ = _
    unfold stripP
    rw [hr, lstripP_cons_pos _ (by decide), lstripP_cons_pos _ (by decide),
      lstripP_cons_pos _ (by decide), lstripP_cons_neg _ (by decide)]
  have h3 : strStartsWith (pyLower (stripBackticks (fenceWrap inner))) (chars "json") = true := by
    rw [h2]
    simp [pyLower, strStartsWith, chars]
  have h4 : (stripBackticks (fenceWrap inner)).drop 4 = '\n' :: (inner ++ ['\n']) := by
    rw [h2]
    simp
  have h5 : pyStrip ('\n' :: (inner ++ ['\n'])) = pyStrip inner := by
    have e1 : ('\n' : Char) :: (inner ++ ['\n']) = ('\n' :: inner) ++ ['\n'] := by simp
    show stripP isWS _ = stripP isWS inner
    rw [e1, stripP_append_pos _ (by decide), stripP_cons_pos _ (by decide)]
  rw [h1]
  unfold stripFences
  rw [if_pos hstart, if_pos h3, h4, h5]

/-! ## Pipeline reduction helper -/

/-- On a request that passes validation, the endpoint reduces to the
synthesis-parse / normalization stages. -/
lemma quiz_valid_branch (loads : Str → Option Json) (req : Request)
    (gem gpt : Str) (ch : List Nat) (himg : req.hasImage = true)
    (hd : normDifficulty req ∈ DIFFICULTIES) (hc : normCategory req ∈ CATEGORIES) :
    quiz loads req gem gpt ch
      = (match loads (stripFences (pyStrip gpt)) with
         | none => (Except.error PipeError.synthesisError,
             [BackendCall.gemini, BackendCall.gpt])
         | some quizJson =>
           match getOptions quizJson with
           | Except.error e => (Except.error e, [BackendCall.gemini, BackendCall.gpt])
           | Except.ok (kvs, options) =>
             match normalizeDraft ch options with
             | Except.error e => (Except.error e, [BackendCall.gemini, BackendCall.gpt])
             | Except.ok (shuffled, i) =>
               (Except.ok (mkFinal kvs shuffled i (normDifficulty req) (normCategory req)),
                [BackendCall.gemini, BackendCall.gpt])) := by
  unfold quiz
  rw [if_neg (by simp [himg]), if_neg (by simp [hd, hc])]

/-- When the synthesis response parses to a dict whose options value is the
list `opts`, the endpoint reduces to the normalization stage. -/
lemma quiz_ok_draft (loads : Str → Option Json) (req : Request)
    (gem gpt : Str) (ch : List Nat) (kvs : JsonObj) (opts : List Json)
    (himg : req.hasImage = true)
    (hd : normDifficulty req ∈ DIFFICULTIES) (hc : normCategory req ∈ CATEGORIES)
    (hload : loads (stripFences (pyStrip gpt)) = some (Json.obj kvs))
    (hopt : getOptions (Json.obj kvs) = Except.ok (kvs, opts)) :
    quiz loads req gem gpt ch
      = (match normalizeDraft ch opts with
         | Except.error e => (Except.error e, [BackendCall.gemini, BackendCall.gpt])
         | Except.ok (shuffled, i) =>
           (Except.ok (mkFinal kvs shuffled i (normDifficulty req) (normCategory req)),
            [BackendCall.gemini, BackendCall.gpt])) := by
  rw [quiz_valid_branch loads req gem gpt ch himg hd hc, hload]
  show (match getOptions (Json.obj kvs) with
        | Except.error e => (Except.error e, [BackendCall.gemini, BackendCall.gpt])
        | Except.ok (kvs2, options) =>
          match normalizeDraft ch options with
          | Except.error e => (Except.error e, [BackendCall.gemini, BackendCall.gpt])
          | Except.ok (shuffled, i) =>
            (Except.ok (mkFinal kvs2 shuffled i (normDifficulty req) (normCategory req)),
             [BackendCall.gemini, BackendCall.gpt])) = _
  rw [hopt]

/-! ## Claim theorems -/

/-- C4: for every description-extraction backend response text that fails
strict JSON parsing (after whitespace and fence stripping), the extractor
does not raise: it yields the object `{"description": <raw response text>}`. -/
theorem c4_extraction_fallback (loads : Str → Option Json) (desc : Str)
    (h : loads (stripFences (pyStrip desc)) = none) :
    extractDescription loads desc
      = Json.obj (JsonObj.cons (chars "description") (Json.str desc) JsonObj.nil) := by
  unfold extractDescription
  rw [h]

/-- C4 witness: the non-JSON response `"a red shoe"` fails strict parsing and
yields exactly `{"description": "a red shoe"}`. -/
theorem c4_extraction_fallback_witness :
    jsonLoads (stripFences (pyStrip (chars "a red shoe"))) = none ∧
    extractDescription jsonLoads (chars "a red shoe")
      = Json.obj (JsonObj.cons (chars "description")
          (Json.str (chars "a red shoe")) JsonObj.nil) :=
  ⟨by decide, c4_extraction_fallback jsonLoads (chars "a red shoe") (by decide)⟩

/-- C9: for a backend response wrapped in a triple-backtick fence with a
leading `json` language tag, the cleanup strips the fence and the tag, so the
parse attempted (and, on success, its result) is exactly the strict JSON parse
of the unwrapped inner content. -/
theorem c9_fence_stripping (loads : Str → Option Json) (inner : Str) (j : Json)
    (h : loads (pyStrip inner) = some j) :
    stripFences (pyStrip (fenceWrap inner)) = pyStrip inner ∧
    extractDescription loads (fenceWrap inner) = j := by
  refine ⟨fence_clean inner, ?_⟩
  unfold extractDescription
  rw [fence_clean inner, h]

/-- C9 witness: a fenced `[1, 2]` parses to the same value as bare `[1, 2]`. -/
theorem c9_fence_stripping_witness :
    jsonLoads (pyStrip (chars " [1, 2] "))
      = some (Json.arr (JsonArr.cons (Json.num 1) (JsonArr.cons (Json.num 2) JsonArr.nil))) ∧
    extractDescription jsonLoads (fenceWrap (chars " [1, 2] "))
      = Json.arr (JsonArr.cons (Json.num 1) (JsonArr.cons (Json.num 2) JsonArr.nil)) :=
  ⟨by decide, (c9_fence_stripping jsonLoads (chars " [1, 2] ")
      (Json.arr (JsonArr.cons (Json.num 1) (JsonArr.cons (Json.num 2) JsonArr.nil)))
      (by decide)).2⟩

/-- C1: for every draft with at least 2 options that the normalizer accepts,
the produced record satisfies `options[correct_index] = ` the value at
position 0 of the pre-shuffle draft (exact value equality). -/
theorem c1_correct_position (choices : List Nat) (opts : List Json) (v : Json)
    (h2 : 2 ≤ opts.length) (hv : opts[0]? = some v) :
    ∀ sh i, normalizeDraft choices opts = Except.ok (sh, i) → sh[i]? = some v := by
  intro sh i h
  have hne : opts ≠ [] := by
    intro he
    rw [he] at h2
    simp at h2
  have hhead : opts.headD Json.null = v := by
    cases opts with
    | nil => exact absurd rfl hne
    | cons x t => simpa using hv
  have hnd : normalizeDraft choices opts
      = Except.ok (recoverIndex (fyShuffle choices opts) (opts.headD Json.null)) := by
    unfold normalizeDraft
    rw [if_neg (by omega)]
  rw [hnd] at h
  cases hp : pyIndex (fyShuffle choices opts) (opts.headD Json.null) with
  | some n =>
    have hrec : recoverIndex (fyShuffle choices opts) (opts.headD Json.null)
        = (fyShuffle choices opts, n) := by
      unfold recoverIndex
      rw [hp]
    rw [hrec] at h
    injection h with h1
    cases h1
    rw [← hhead]
    exact pyIndex_get _ _ _ hp
  | none =>
    have hrec : recoverIndex (fyShuffle choices opts) (opts.headD Json.null)
        = ((fyShuffle choices opts).set 0 (opts.headD Json.null), 0) := by
      unfold recoverIndex
      rw [hp]
    rw [hrec] at h
    injection h with h1
    cases h1
    have hlen : 0 < (fyShuffle choices opts).length := by
      rw [fyShuffle_length]
      omega
    cases hsh : fyShuffle choices opts with
    | nil =>
      rw [hsh] at hlen
      simp at hlen
    | cons b t =>
      rw [hhead]
      simp

/-- C1 witness: a concrete accepted draft whose record points at the original
first option. -/
theorem c1_correct_position_witness :
    normalizeDraft [0] [Json.str (chars "A"), Json.str (chars "B")]
      = Except.ok ([Json.str (chars "B"), Json.str (chars "A")], 1) ∧
    [Json.str (chars "B"), Json.str (chars "A")][1]? = some (Json.str (chars "A")) := by
  constructor
  · decide
  · exact c1_correct_position [0] [Json.str (chars "A"), Json.str (chars "B")]
      (Json.str (chars "A")) (by decide) (by decide)
      [Json.str (chars "B"), Json.str (chars "A")] 1 (by decide)

/-- C2 counterexample: with the duplicated correct text `"A"` in the draft
`["A", "A", "B"]` and draws `[0, 1]`, the shuffled list is `["B", "A", "A"]`
and the code sets `correct_index = 1` with `options[0] = "B"`: it does NOT
force `options[0] := correct_answer` and `correct_index := 0` in the
duplicate (not-uniquely-locatable) case, refuting the claim as stated. -/
theorem c2_duplicate_counterexample :
    normalizeDraft [0, 1]
        [Json.str (chars "A"), Json.str (chars "A"), Json.str (chars "B")]
      = Except.ok ([Json.str (chars "B"), Json.str (chars "A"), Json.str (chars "A")], 1) ∧
    correctIndexOf [0, 1]
        [Json.str (chars "A"), Json.str (chars "A"), Json.str (chars "B")] ≠ some 0 ∧
    Json.str (chars "B") ≠ Json.str (chars "A") := by
  decide

/-- C2 (amended): the recovery step never fails; when the correct answer's
value is absent from the shuffled sequence it forces `options[0] :=
correct_answer` and `correct_index := 0`; when the value is present (also
under duplicates) nothing is overwritten and `correct_index` is the first
position holding the value. -/
theorem c2_defensive_recovery (shuffled : List Json) (correct : Json) :
    (correct ∉ shuffled →
      recoverIndex shuffled correct = (shuffled.set 0 correct, 0) ∧
      (shuffled ≠ [] → (shuffled.set 0 correct)[0]? = some correct)) ∧
    (correct ∈ shuffled →
      (recoverIndex shuffled correct).1 = shuffled ∧
      ∃ i, (recoverIndex shuffled correct).2 = i ∧ pyIndex shuffled correct = some i ∧
        shuffled[i]? = some correct ∧ ∀ j, j < i → shuffled[j]? ≠ some correct) := by
  constructor
  · intro hab
    have hnone : pyIndex shuffled correct = none := (pyIndex_none_iff _ _).mpr hab
    constructor
    · unfold recoverIndex
      rw [hnone]
    · intro hne
      cases shuffled with
      | nil => exact absurd rfl hne
      | cons b t => simp
  · intro hmem
    obtain ⟨i, hi⟩ := pyIndex_of_mem hmem
    unfold recoverIndex
    rw [hi]
    exact ⟨rfl, i, rfl, rfl, pyIndex_get _ _ _ hi, pyIndex_min _ _ _ hi⟩

/-- C2 witness: simulated corruption (correct answer `"A"` absent from the
shuffled list `["B"]`) is repaired to `(["A"], 0)` without failing. -/
theorem c2_defensive_recovery_witness :
    recoverIndex [Json.str (chars "B")] (Json.str (chars "A"))
      = ([Json.str (chars "A")], 0) ∧
    Json.str (chars "A") ∉ [Json.str (chars "B")] := by
  constructor
  · have h := (c2_defensive_recovery [Json.str (chars "B")] (Json.str (chars "A"))).1
      (by decide)
    rw [h.1]
    decide
  · decide

/-- C10: for every draft with at least 2 options, the record's options are a
permutation of the draft's options, the defensive overwrite branch is never
taken (the result is exactly the shuffled copy), and the recomputed index is
in bounds. -/
theorem c10_normalizer_safety (choices : List Nat) (opts : List Json)
    (h2 : 2 ≤ opts.length) :
    ∃ i, normalizeDraft choices opts = Except.ok (fyShuffle choices opts, i) ∧
      List.Perm (fyShuffle choices opts) opts ∧ i < opts.length ∧
      pyIndex (fyShuffle choices opts) (opts.headD Json.null) = some i := by
  have hne : opts ≠ [] := by
    intro he
    rw [he] at h2
    simp at h2
  have hmemo : opts.headD Json.null ∈ opts := by
    cases opts with
    | nil => exact absurd rfl hne
    | cons x t => simp
  have hmem : opts.headD Json.null ∈ fyShuffle choices opts :=
    ((fyShuffle_perm choices opts).mem_iff).mpr hmemo
  obtain ⟨i, hi⟩ := pyIndex_of_mem hmem
  refine ⟨i, ?_, fyShuffle_perm choices opts, ?_, hi⟩
  · have hnd : normalizeDraft choices opts
        = Except.ok (recoverIndex (fyShuffle choices opts) (opts.headD Json.null)) := by
      unfold normalizeDraft
      rw [if_neg (by omega)]
    rw [hnd]
    unfold recoverIndex
    rw [hi]
  · have h := pyIndex_lt _ _ _ hi
    rw [fyShuffle_length] at h
    exact h

/-- C10 witness: a concrete 2-option draft is normalized to a permutation of
itself. -/
theorem c10_normalizer_safety_witness :
    List.Perm (fyShuffle [0] [Json.str (chars "A"), Json.str (chars "B")])
      [Json.str (chars "A"), Json.str (chars "B")] ∧
    2 ≤ ([Json.str (chars "A"), Json.str (chars "B")] : List Json).length :=
  ⟨Exists.elim (c10_normalizer_safety [0]
      [Json.str (chars "A"), Json.str (chars "B")] (by decide))
    (fun _ h => h.2.1), by decide⟩

/-- C7: a draft with fewer than 2 options (including an empty or missing
options sequence) is rejected with `InsufficientOptionsError`, surfaced as a
server-side (HTTP 500) failure, and no final record is returned. -/
theorem c7_insufficient_options (loads : Str → Option Json) (req : Request)
    (gem gpt : Str) (ch : List Nat) (kvs : JsonObj) (a : JsonArr)
    (himg : req.hasImage = true)
    (hd : normDifficulty req ∈ DIFFICULTIES) (hc : normCategory req ∈ CATEGORIES)
    (hload : loads (stripFences (pyStrip gpt)) = some (Json.obj kvs))
    (hopt : kvs.getD (chars "options") (Json.arr JsonArr.nil) = Json.arr a)
    (hlen : a.toList.length < 2) :
    quiz loads req gem gpt ch
      = (Except.error PipeError.insufficientOptions,
         [BackendCall.gemini, BackendCall.gpt]) ∧
    errorStatus PipeError.insufficientOptions = 500 ∧
    errorMessage PipeError.insufficientOptions
      = some (chars "LLM did not return enough options") := by
  refine ⟨?_, rfl, rfl⟩
  have hopt2 : getOptions (Json.obj kvs) = Except.ok (kvs, a.toList) := by
    simp [getOptions, hopt]
  have hnorm : normalizeDraft ch a.toList = Except.error PipeError.insufficientOptions := by
    unfold normalizeDraft
    rw [if_pos hlen]
  rw [quiz_ok_draft loads req gem gpt ch kvs a.toList himg hd hc hload hopt2, hnorm]

/-- C7 witness: a parsed quiz without an "options" key (so the options list is
the empty default) is rejected with the 500 insufficient-options error. -/
theorem c7_insufficient_options_witness :
    quiz jsonLoads (Request.mk true (some (chars "medium")) (some (chars "History")))
        (chars "a red sneaker") (chars "\x7b\"q\": 1\x7d") []
      = (Except.error PipeError.insufficientOptions,
         [BackendCall.gemini, BackendCall.gpt]) ∧
    errorStatus PipeError.insufficientOptions = 500 := by
  have h := c7_insufficient_options jsonLoads
    (Request.mk true (some (chars "medium")) (some (chars "History")))
    (chars "a red sneaker") (chars "\x7b\"q\": 1\x7d") []
    (JsonObj.cons (chars "q") (Json.num 1) JsonObj.nil) JsonArr.nil
    (by decide) (by decide) (by decide) (by decide) (by decide) (by decide)
  exact ⟨h.1, h.2.1⟩

/-- C8: when the synthesis response fails strict JSON parsing after fence
stripping, the request fails with `SynthesisError` (HTTP 500, no JSON error
body of its own) and no final record is returned; there is no fallback. -/
theorem c8_synthesis_fatal (loads : Str → Option Json) (req : Request)
    (gem gpt : Str) (ch : List Nat) (himg : req.hasImage = true)
    (hd : normDifficulty req ∈ DIFFICULTIES) (hc : normCategory req ∈ CATEGORIES)
    (hload : loads (stripFences (pyStrip gpt)) = none) :
    quiz loads req gem gpt ch
      = (Except.error PipeError.synthesisError,
         [BackendCall.gemini, BackendCall.gpt]) ∧
    errorStatus PipeError.synthesisError = 500 := by
  refine ⟨?_, rfl⟩
  rw [quiz_valid_branch loads req gem gpt ch himg hd hc, hload]

/-- C8 witness: a non-JSON synthesis response makes the whole request fail
with the synthesis error. -/
theorem c8_synthesis_fatal_witness :
    quiz jsonLoads (Request.mk true (some (chars "medium")) (some (chars "History")))
        (chars "a red sneaker") (chars "here is your quiz!") []
      = (Except.error PipeError.synthesisError,
         [BackendCall.gemini, BackendCall.gpt]) ∧
    errorStatus PipeError.synthesisError = 500 :=
  c8_synthesis_fatal jsonLoads
    (Request.mk true (some (chars "medium")) (some (chars "History")))
    (chars "a red sneaker") (chars "here is your quiz!") []
    (by decide) (by decide) (by decide) (by decide)

/-- C5: a missing image, a difficulty not in the enumeration after
strip-and-title normalization, or a category not in the enumeration is
rejected with the corresponding client-fault (HTTP 400) validation error and
its JSON message, and no backend call is issued. -/
theorem c5_validation_gate (loads : Str → Option Json) (req : Request)
    (gem gpt : Str) (ch : List Nat)
    (h : req.hasImage = false ∨ normDifficulty req ∉ DIFFICULTIES ∨
      normCategory req ∉ CATEGORIES) :
    quiz loads req gem gpt ch
      = (Except.error
          (if req.hasImage then PipeError.invalidParams else PipeError.imageRequired),
         []) ∧
    errorStatus PipeError.imageRequired = 400 ∧
    errorStatus PipeError.invalidParams = 400 ∧
    errorMessage PipeError.imageRequired = some (chars "image required") ∧
    errorMessage PipeError.invalidParams = some (chars "invalid difficulty or category") := by
  refine ⟨?_, rfl, rfl, rfl, rfl⟩
  cases him : req.hasImage with
  | false =>
    unfold quiz
    rw [if_pos him]
    simp
  | true =>
    have hp : normDifficulty req ∉ DIFFICULTIES ∨ normCategory req ∉ CATEGORIES := by
      rcases h with h1 | h2 | h3
      · rw [him] at h1
        exact absurd h1 (by simp)
      · exact Or.inl h2
      · exact Or.inr h3
    unfold quiz
    rw [if_neg (by simp [him]), if_pos hp]
    simp

/-- C5 witness: difficulty `"impossible"` and category `"Science"` are each
rejected with the 400 invalid-params error and no backend call; a missing
image is rejected with the 400 image-required error and no backend call. -/
theorem c5_validation_gate_witness :
    quiz jsonLoads (Request.mk true (some (chars "impossible")) (some (chars "General")))
        (chars "d") (chars "q") [] = (Except.error PipeError.invalidParams, []) ∧
    quiz jsonLoads (Request.mk true (some (chars "medium")) (some (chars "Science")))
        (chars "d") (chars "q") [] = (Except.error PipeError.invalidParams, []) ∧
    quiz jsonLoads (Request.mk false none none)
        (chars "d") (chars "q") [] = (Except.error PipeError.imageRequired, []) := by
  refine ⟨?_, ?_, ?_⟩
  · have h := (c5_validation_gate jsonLoads
      (Request.mk true (some (chars "impossible")) (some (chars "General")))
      (chars "d") (chars "q") [] (by decide)).1
    simpa using h
  · have h := (c5_validation_gate jsonLoads
      (Request.mk true (some (chars "medium")) (some (chars "Science")))
      (chars "d") (chars "q") [] (by decide)).1
    simpa using h
  · have h := (c5_validation_gate jsonLoads
      (Request.mk false none none)
      (chars "d") (chars "q") [] (by decide)).1
    simpa using h

/-- C6 counterexample: a request that supplies neither difficulty nor
category still succeeds, with the defaults `"Medium"`/`"General"` substituted
at ingress (and backend calls made) — the values were not supplied by the
caller, refuting "never a substituted default" as stated. -/
theorem c6_default_counterexample :
    (quiz jsonLoads (Request.mk true none none) (chars "a red sneaker")
        (chars "\x7b\"options\": [\"A\", \"B\"]\x7d") [0]).1.map finalDifficulty
      = Except.ok (chars "Medium") ∧
    (quiz jsonLoads (Request.mk true none none) (chars "a red sneaker")
        (chars "\x7b\"options\": [\"A\", \"B\"]\x7d") [0]).1.map finalCategory
      = Except.ok (chars "General") ∧
    (Request.mk true none none).difficulty = none ∧
    (Request.mk true none none).category = none ∧
    (quiz jsonLoads (Request.mk true none none) (chars "a red sneaker")
        (chars "\x7b\"options\": [\"A\", \"B\"]\x7d") [0]).2
      ≠ ([] : List BackendCall) := by
  decide

/-- C6 (amended): whenever any backend call is made, both (normalized)
fields are members of their enumerations; every returned record carries
exactly the endpoint's difficulty/category values — the normalized supplied
value when the caller supplied the field, and the ingress defaults
`"Medium"`/`"General"` when the field was absent. -/
theorem c6_enum_before_generation (loads : Str → Option Json) (req : Request)
    (gem gpt : Str) (ch : List Nat) :
    ((quiz loads req gem gpt ch).2 ≠ [] →
      normDifficulty req ∈ DIFFICULTIES ∧ normCategory req ∈ CATEGORIES) ∧
    (∀ f, (quiz loads req gem gpt ch).1 = Except.ok f →
      f.difficulty = normDifficulty req ∧ f.category = normCategory req) := by
  constructor
  · intro hcalls
    by_cases him : req.hasImage = false
    · exfalso
      apply hcalls
      unfold quiz
      rw [if_pos him]
    · by_cases hval : normDifficulty req ∉ DIFFICULTIES ∨ normCategory req ∉ CATEGORIES
      · exfalso
        apply hcalls
        unfold quiz
        rw [if_neg him, if_pos hval]
      · push_neg at hval
        exact hval
  · intro f hf
    by_cases him : req.hasImage = false
    · have hq : quiz loads req gem gpt ch = (Except.error PipeError.imageRequired, []) := by
        unfold quiz
        rw [if_pos him]
      rw [hq] at hf
      exact absurd hf (by simp)
    · by_cases hval : normDifficulty req ∉ DIFFICULTIES ∨ normCategory req ∉ CATEGORIES
      · have hq : quiz loads req gem gpt ch = (Except.error PipeError.invalidParams, []) := by
          unfold quiz
          rw [if_neg him, if_pos hval]
        rw [hq] at hf
        exact absurd hf (by simp)
      · have himg : req.hasImage = true := by
          cases hb : req.hasImage
          · exact absurd hb him
          · rfl
        push_neg at hval
        rw [quiz_valid_branch loads req gem gpt ch himg hval.1 hval.2] at hf
        cases hl : loads (stripFences (pyStrip gpt)) with
        | none =>
          rw [hl] at hf
          exact absurd hf (by simp)
        | some qj =>
          rw [hl] at hf
          replace hf : ((match getOptions qj with
            | Except.error e => (Except.error e, [BackendCall.gemini, BackendCall.gpt])
            | Except.ok (kvs2, options) =>
              match normalizeDraft ch options with
              | Except.error e => (Except.error e, [BackendCall.gemini, BackendCall.gpt])
              | Except.ok (shuffled, i) =>
                (Except.ok (mkFinal kvs2 shuffled i (normDifficulty req) (normCategory req)),
                 [BackendCall.gemini, BackendCall.gpt])).1
              = Except.ok f) := hf
          cases hg : getOptions qj with
          | error e =>
            rw [hg] at hf
            exact absurd hf (by simp)
          | ok p =>
            rw [hg] at hf
            replace hf : ((match normalizeDraft ch p.2 with
              | Except.error e => (Except.error e, [BackendCall.gemini, BackendCall.gpt])
              | Except.ok (shuffled, i) =>
                (Except.ok (mkFinal p.1 shuffled i (normDifficulty req) (normCategory req)),
                 [BackendCall.gemini, BackendCall.gpt])).1
                = Except.ok f) := hf
            cases hn : normalizeDraft ch p.2 with
            | error e =>
              rw [hn] at hf
              exact absurd hf (by simp)
            | ok q =>
              rw [hn] at hf
              replace hf : Except.ok (mkFinal p.1 q.1 q.2 (normDifficulty req)
                  (normCategory req)) = Except.ok f := hf
              injection hf with hf2
              rw [← hf2]
              exact ⟨rfl, rfl⟩

/-- C6 amended witness: a validated pipeline run has both fields in their
enumerations; with supplied fields `" very   hard "` and `"History"` the
record carries exactly the normalized values. -/
theorem c6_enum_before_generation_witness :
    (normDifficulty (Request.mk true (some (chars "very hard")) (some (chars "History")))
        ∈ DIFFICULTIES ∧
      normCategory (Request.mk true (some (chars "very hard")) (some (chars "History")))
        ∈ CATEGORIES) ∧
    (quiz jsonLoads (Request.mk true (some (chars "very hard")) (some (chars "History")))
        (chars "a red sneaker") (chars "\x7b\"options\": [\"A\", \"B\"]\x7d") [0]).1.map
      finalDifficulty = Except.ok (chars "Very Hard") := by
  constructor
  · exact (c6_enum_before_generation jsonLoads
      (Request.mk true (some (chars "very hard")) (some (chars "History")))
      (chars "a red sneaker") (chars "\x7b\"options\": [\"A\", \"B\"]\x7d") [0]).1
      (by decide)
  · decide

/-- C3 counterexample: on the 4-option draft `["A", "A", "B", "C"]` (correct
text `"A"` duplicated), over the 24 equally likely draw vectors the index 3
is produced 0 times (uniformity would require 6 of 24), so `correct_index`
is not uniformly distributed over {0,1,2,3} for every 4-option draft. -/
theorem c3_duplicate_counterexample :
    choiceSpace4.countP (fun ch => decide (correctIndexOf ch
        [Json.str (chars "A"), Json.str (chars "A"),
         Json.str (chars "B"), Json.str (chars "C")] = some 3)) = 0 ∧
    choiceSpace4.length = 24 := by
  decide

/-- C3 (amended): over the uniform random source, `random.shuffle` is a
bijection from the 24 equally likely draw vectors onto the 24 arrangements
of a 4-element list (every outcome is a permutation, the 24 outcomes are
pairwise distinct, and there are exactly 24 draw vectors — so every
permutation is produced exactly once, i.e. uniformly); the permutation
applied is independent of option contents (the shuffle commutes with any
relabeling); and consequently for every 4-option draft whose first
(correct) option value does not occur among the other options the
recomputed `correct_index` is exactly uniform over {0,1,2,3} (6 of the 24
equally likely draw vectors for each value). -/
theorem c3_shuffle_uniform (w1 w2 w3 w4 : Json)
    (hdist : w1 ∉ [w2, w3, w4]) :
    ((∀ ch : List Nat, (fyShuffle ch [0, 1, 2, 3]).Perm [0, 1, 2, 3]) ∧
      (choiceSpace4.map (fun ch => fyShuffle ch [0, 1, 2, 3])).Nodup ∧
      choiceSpace4.length = 24) ∧
    (∀ (f : Json → Json) (ch : List Nat) (l : List Json),
      fyShuffle ch (l.map f) = (fyShuffle ch l).map f) ∧
    (∀ k, k < 4 →
      choiceSpace4.countP
        (fun ch => decide (correctIndexOf ch [w1, w2, w3, w4] = some k)) = 6) := by
  refine ⟨⟨fun ch => fyShuffle_perm ch [0, 1, 2, 3], by decide, by decide⟩,
    fun f ch l => fyShuffle_map f ch l, ?_⟩
  · have h21 : w2 ≠ w1 := by
      intro hh
      exact hdist (by simp [hh.symm])
    have h31 : w3 ≠ w1 := by
      intro hh
      exact hdist (by simp [hh.symm])
    have h41 : w4 ≠ w1 := by
      intro hh
      exact hdist (by simp [hh.symm])
    have heq : ∀ ch : List Nat,
        correctIndexOf ch [w1, w2, w3, w4]
          = pyIndex (fyShuffle ch [(0 : Nat), 1, 2, 3]) 0 := by
      intro ch
      have hmem : w1 ∈ ([w1, w2, w3, w4] : List Json) := by simp
      have hmem2 : w1 ∈ fyShuffle ch [w1, w2, w3, w4] :=
        ((fyShuffle_perm ch [w1, w2, w3, w4]).mem_iff).mpr hmem
      obtain ⟨i, hi⟩ := pyIndex_of_mem hmem2
      have hco : correctIndexOf ch [w1, w2, w3, w4] = some i := by
        have hnd : normalizeDraft ch [w1, w2, w3, w4]
            = Except.ok (recoverIndex (fyShuffle ch [w1, w2, w3, w4]) w1) := by
          unfold normalizeDraft
          rw [if_neg (by simp)]
          rfl
        unfold correctIndexOf
        rw [hnd]
        unfold recoverIndex
        rw [hi]
      have hPmem : ∀ x ∈ fyShuffle ch [(0 : Nat), 1, 2, 3],
          ((fun n => ([w1, w2, w3, w4] : List Json).getD n Json.null) x = w1 ↔ x = 0) := by
        intro x hx
        have hx4 : x ∈ ([(0 : Nat), 1, 2, 3]) :=
          ((fyShuffle_perm ch [(0 : Nat), 1, 2, 3]).mem_iff).mp hx
        fin_cases hx4
        · simp
        · simpa using h21
        · simpa using h31
        · simpa using h41
      have hmapl : ([w1, w2, w3, w4] : List Json)
          = List.map (fun n => ([w1, w2, w3, w4] : List Json).getD n Json.null)
              [(0 : Nat), 1, 2, 3] := by
        simp
      have hmap : pyIndex (fyShuffle ch [w1, w2, w3, w4]) w1
          = pyIndex (fyShuffle ch [(0 : Nat), 1, 2, 3]) 0 := by
        calc pyIndex (fyShuffle ch [w1, w2, w3, w4]) w1
            = pyIndex (fyShuffle ch (List.map
                (fun n => ([w1, w2, w3, w4] : List Json).getD n Json.null)
                [(0 : Nat), 1, 2, 3])) w1 := by rw [← hmapl]
          _ = pyIndex ((fyShuffle ch [(0 : Nat), 1, 2, 3]).map
                (fun n => ([w1, w2, w3, w4] : List Json).getD n Json.null)) w1 := by
              rw [fyShuffle_map]
          _ = pyIndex (fyShuffle ch [(0 : Nat), 1, 2, 3]) 0 :=
              pyIndex_map_congr _ w1 0 _ hPmem
      rw [hco, ← hmap, hi]
    intro k hk
    have hfun : (fun ch => decide (correctIndexOf ch [w1, w2, w3, w4] = some k))
        = (fun ch => decide (pyIndex (fyShuffle ch [(0 : Nat), 1, 2, 3]) 0 = some k)) := by
      funext ch
      apply decide_eq_decide.mpr
      rw [heq ch]
    rw [hfun]
    have hmain : ∀ k2, k2 < 4 →
        choiceSpace4.countP
          (fun ch => decide (pyIndex (fyShuffle ch [(0 : Nat), 1, 2, 3]) 0 = some k2)) = 6 := by
      decide
    exact hmain k hk

/-- C3 amended witness: for a 4-option draft with pairwise distinct texts,
the index 2 is produced by exactly 6 of the 24 draw vectors. -/
theorem c3_shuffle_uniform_witness :
    choiceSpace4.countP (fun ch => decide (correctIndexOf ch
        [Json.str (chars "A"), Json.str (chars "B"),
         Json.str (chars "C"), Json.str (chars "D")] = some 2)) = 6 ∧
    Json.str (chars "A") ∉ [Json.str (chars "B"), Json.str (chars "C"),
      Json.str (chars "D")] :=
  ⟨(c3_shuffle_uniform (Json.str (chars "A")) (Json.str (chars "B"))
      (Json.str (chars "C")) (Json.str (chars "D")) (by decide)).2.2 2 (by decide),
   by decide⟩
